import Mathlib

/-!
Shallow embedding of the LocalLense order-lifecycle and review/rating core
(`routes/orders.js`, `routes/reviews.js`, `models/Order.js`, `models/Product.js`,
`models/Review.js`).  Money and ratings are modelled as exact rationals,
timestamps as integer milliseconds, document ids as naturals.
-/

namespace LocalLense

/-- JavaScript `Math.round`: round half toward positive infinity. -/
def jsRound (x : ℚ) : ℤ := ⌊x + 1/2⌋

/-- Catalog item (`models/Product.js`): the fields the order/review core touches. -/
structure Product where
  id : ℕ
  artisan : ℕ
  isActive : Bool
  /-- `inventory.trackInventory` -/
  trackInventory : Bool
  /-- `inventory.quantity` -/
  quantity : ℤ
  /-- `stats.totalSold` -/
  totalSold : ℤ
  /-- `price.amount` -/
  priceAmount : ℚ
  /-- `price.discount`, an optional percentage -/
  priceDiscount : Option ℚ
  /-- `rating.average` -/
  ratingAverage : ℚ
  /-- `rating.count` -/
  ratingCount : ℕ
  deriving Repr, DecidableEq

/-- Virtual `discountedPrice` (Product.js:244-249). -/
def Product.discountedPrice (p : Product) : ℚ :=
  match p.priceDiscount with
  | some d => if d > 0 then p.priceAmount * (1 - d / 100) else p.priceAmount
  | none => p.priceAmount

/-- `productSchema.methods.isAvailable` (Product.js:266-270). -/
def Product.isAvailable (p : Product) (q : ℤ) : Bool :=
  if !p.isActive then false
  else if !p.trackInventory then true
  else decide (p.quantity ≥ q)

/-- Seller record (`models/Artisan.js`): only the aggregate rating matters here. -/
structure Artisan where
  id : ℕ
  ratingAverage : ℚ
  ratingCount : ℕ
  deriving Repr, DecidableEq

inductive OrderStatus where
  | pending | confirmed | processing | shipped | delivered | cancelled | returned
  deriving Repr, DecidableEq

def OrderStatus.toText : OrderStatus → String
  | .pending => "pending"
  | .confirmed => "confirmed"
  | .processing => "processing"
  | .shipped => "shipped"
  | .delivered => "delivered"
  | .cancelled => "cancelled"
  | .returned => "returned"

inductive PaymentMethod where
  | card | upi | netbanking | wallet | cod
  deriving Repr, DecidableEq

inductive PaymentStatus where
  | pending | processing | completed | failed | refunded
  deriving Repr, DecidableEq

inductive RefundStatus where
  | pending | processed | failed
  deriving Repr, DecidableEq

/-- One line item of an order (Order.js:14-56, as filled in by the create handler). -/
structure OrderItem where
  product : ℕ
  artisan : ℕ
  quantity : ℤ
  price : ℚ
  deriving Repr, DecidableEq

/-- Pricing summary (Order.js:101-129); `discount.amount` defaults to 0. -/
structure Pricing where
  subtotal : ℚ
  shippingCost : ℚ
  tax : ℚ
  discountAmount : ℚ
  totalAmount : ℚ
  deriving Repr, DecidableEq

/-- Timeline entry (Order.js:156-167); `updatedBy` is absent on hook-generated entries. -/
structure TimelineEntry where
  status : OrderStatus
  timestamp : ℤ
  note : Option String
  updatedBy : Option ℕ
  deriving Repr, DecidableEq

/-- Cancellation metadata (Order.js:174-185). -/
structure Cancellation where
  reason : Option String
  cancelledBy : ℕ
  cancelledAt : ℤ
  refundStatus : RefundStatus
  deriving Repr, DecidableEq

structure Order where
  id : ℕ
  customer : ℕ
  items : List OrderItem
  pricing : Pricing
  paymentMethod : PaymentMethod
  paymentStatus : PaymentStatus
  status : OrderStatus
  timeline : List TimelineEntry
  actualDelivery : Option ℤ
  createdAt : ℤ
  cancellation : Option Cancellation
  deriving Repr, DecidableEq

/-- `orderSchema.methods.canBeCancelled` (Order.js:238-240). -/
def Order.canBeCancelled (o : Order) : Bool :=
  o.status = OrderStatus.pending ∨ o.status = OrderStatus.confirmed

/-- `orderSchema.methods.canBeReturned` (Order.js:243-248): elapsed days since
`actualDelivery` (falling back to `createdAt`) must be at most 7. -/
def Order.canBeReturned (o : Order) (now : ℤ) : Bool :=
  if o.status ≠ OrderStatus.delivered then false
  else
    let deliveryDate := o.actualDelivery.getD o.createdAt
    decide ((now - deliveryDate : ℚ) / (1000 * 60 * 60 * 24) ≤ 7)

inductive ReviewStatus where
  | pending | approved | rejected | flagged
  deriving Repr, DecidableEq

structure Vote where
  user : ℕ
  helpful : Bool
  votedAt : ℤ
  deriving Repr, DecidableEq

structure Review where
  id : ℕ
  product : ℕ
  artisan : ℕ
  customer : ℕ
  order : ℕ
  ratingOverall : ℚ
  comment : String
  status : ReviewStatus
  helpfulVotes : ℤ
  votedBy : List Vote
  deriving Repr, DecidableEq

/-- `reviewSchema.methods.canVote` (Review.js:194-196). -/
def Review.canVote (r : Review) (userId : ℕ) : Bool :=
  !(r.votedBy.any fun v => v.user = userId)

structure CartEntry where
  product : ℕ
  quantity : ℤ
  deriving Repr, DecidableEq

structure UserRec where
  id : ℕ
  isAdmin : Bool
  cart : List CartEntry
  deriving Repr, DecidableEq

/-- The document store visible to the core: one collection per model. -/
structure State where
  products : List Product
  artisans : List Artisan
  orders : List Order
  reviews : List Review
  users : List UserRec
  deriving Repr, DecidableEq

/-- `Product.findById`: first record with the given id. -/
def findProduct : List Product → ℕ → Option Product
  | [], _ => none
  | p :: ps, i => if p.id = i then some p else findProduct ps i

/-- `product.save()`: replace the first record carrying this product's id. -/
def saveProduct : List Product → Product → List Product
  | [], _ => []
  | p :: ps, q => if p.id = q.id then q :: ps else p :: saveProduct ps q

def findOrder : List Order → ℕ → Option Order
  | [], _ => none
  | o :: os, i => if o.id = i then some o else findOrder os i

def saveOrder : List Order → Order → List Order
  | [], _ => []
  | o :: os, q => if o.id = q.id then q :: os else o :: saveOrder os q

def findArtisan : List Artisan → ℕ → Option Artisan
  | [], _ => none
  | a :: as, i => if a.id = i then some a else findArtisan as i

def saveArtisan : List Artisan → Artisan → List Artisan
  | [], _ => []
  | a :: as, q => if a.id = q.id then q :: as else a :: saveArtisan as q

def findReview : List Review → ℕ → Option Review
  | [], _ => none
  | r :: rs, i => if r.id = i then some r else findReview rs i

def saveReview : List Review → Review → List Review
  | [], _ => []
  | r :: rs, q => if r.id = q.id then q :: rs else r :: saveReview rs q

/-- `User.findByIdAndUpdate(customerId, { cart: [] })` (orders.js:85). -/
def clearCart : List UserRec → ℕ → List UserRec
  | [], _ => []
  | u :: us, i => if u.id = i then { u with cart := [] } :: us else u :: clearCart us i

inductive OrderError where
  | itemUnavailable (productId : ℕ)
  | insufficientStock (productId : ℕ)
  | notFound
  | accessDenied
  | invalidStatus
  | invalidTransition
  deriving Repr, DecidableEq

/-- One entry of the `items` array of a `POST /api/orders` request body. -/
structure ReqItem where
  product : ℕ
  quantity : ℤ
  deriving Repr, DecidableEq

/-- Outcome of the per-item validate/price/decrement loop (orders.js:22-57):
on failure the handler returns at once, keeping the product saves already made. -/
inductive LoopResult where
  | ok (products : List Product) (subtotal : ℚ) (items : List OrderItem)
  | fail (e : OrderError) (products : List Product)
  deriving Repr, DecidableEq

/-- The `for (const item of items)` loop of the create handler (orders.js:22-57). -/
def processItems : List ReqItem → List Product → LoopResult
  | [], ps => .ok ps 0 []
  | it :: rest, ps =>
    match findProduct ps it.product with
    | none => .fail (.itemUnavailable it.product) ps
    | some p =>
      if !p.isActive then .fail (.itemUnavailable it.product) ps
      else if !(p.isAvailable it.quantity) then .fail (.insufficientStock it.product) ps
      else
        let itemPrice := p.discountedPrice
        let oi : OrderItem :=
          { product := p.id, artisan := p.artisan, quantity := it.quantity, price := itemPrice }
        let ps1 :=
          if p.trackInventory then
            saveProduct ps
              { p with quantity := p.quantity - it.quantity,
                       totalSold := p.totalSold + it.quantity }
          else ps
        match processItems rest ps1 with
        | .ok ps2 sub items => .ok ps2 (itemPrice * it.quantity + sub) (oi :: items)
        | .fail e ps2 => .fail e ps2

/-- `POST /api/orders` (orders.js:13-105): validate/price/decrement each item,
then persist the order with an 18% tax on the subtotal and zero shipping,
then clear the buyer's cart. -/
def createOrder (s : State) (customerId : ℕ) (req : List ReqItem)
    (method : PaymentMethod) (newOrderId : ℕ) (now : ℤ) :
    Except OrderError Order × State :=
  match processItems req s.products with
  | .fail e ps1 => (.error e, { s with products := ps1 })
  | .ok ps1 subtotal items =>
    let shippingCost : ℚ := 0
    let tax : ℚ := subtotal * (18 / 100)
    let totalAmount := subtotal + shippingCost + tax
    let o : Order :=
      { id := newOrderId
        customer := customerId
        items := items
        pricing :=
          { subtotal := subtotal, shippingCost := shippingCost, tax := tax,
            discountAmount := 0, totalAmount := totalAmount }
        paymentMethod := method
        paymentStatus := if method = .cod then .pending else .processing
        status := .pending
        timeline := []
        actualDelivery := none
        createdAt := now
        cancellation := none }
    (.ok o,
      { s with products := ps1, orders := s.orders ++ [o],
               users := clearCart s.users customerId })

/-- Requesting actor: id plus the admin capability consumed from the auth layer. -/
structure Actor where
  id : ℕ
  isAdmin : Bool
  deriving Repr, DecidableEq

def Order.isArtisanOf (o : Order) (uid : ℕ) : Bool :=
  o.items.any fun it => it.artisan = uid

/-- Statuses accepted by `PUT /api/orders/:id/status` (orders.js:157). -/
def validUpdateStatuses : List OrderStatus :=
  [.confirmed, .processing, .shipped, .delivered, .cancelled]

/-- The `pre('save')` timeline hook (Order.js:221-230): when the stored status
changed on a non-new document, append an automatic timeline entry. -/
def applySaveHook (orig : Order) (o : Order) (now : ℤ) : Order :=
  if o.status ≠ orig.status then
    { o with timeline := o.timeline ++
        [{ status := o.status, timestamp := now,
           note := some ("Order status changed to " ++ o.status.toText),
           updatedBy := none }] }
  else o

/-- `PUT /api/orders/:id/status` (orders.js:154-215). -/
def updateStatus (s : State) (orderId : ℕ) (newStatus : OrderStatus)
    (note : Option String) (actor : Actor) (now : ℤ) :
    Except OrderError Order × State :=
  if newStatus ∉ validUpdateStatuses then (.error .invalidStatus, s)
  else
    match findOrder s.orders orderId with
    | none => (.error .notFound, s)
    | some o =>
      if !(o.isArtisanOf actor.id || actor.isAdmin) then (.error .accessDenied, s)
      else
        let o1 := { o with status := newStatus }
        let o2 :=
          match note with
          | some n =>
            { o1 with timeline := o1.timeline ++
                [{ status := newStatus, timestamp := now, note := some n,
                   updatedBy := some actor.id }] }
          | none => o1
        let o3 := if newStatus = .delivered then { o2 with actualDelivery := some now } else o2
        let o4 := applySaveHook o o3 now
        (.ok o4, { s with orders := saveOrder s.orders o4 })

/-- The inventory-restore loop of the cancel handler (orders.js:257-264). -/
def restoreItems : List OrderItem → List Product → List Product
  | [], ps => ps
  | it :: rest, ps =>
    match findProduct ps it.product with
    | none => restoreItems rest ps
    | some p =>
      if p.trackInventory then
        restoreItems rest
          (saveProduct ps
            { p with quantity := p.quantity + it.quantity,
                     totalSold := p.totalSold - it.quantity })
      else restoreItems rest ps

/-- `POST /api/orders/:id/cancel` (orders.js:220-280). -/
def cancelOrder (s : State) (orderId : ℕ) (reason : Option String)
    (actor : Actor) (now : ℤ) : Except OrderError Order × State :=
  match findOrder s.orders orderId with
  | none => (.error .notFound, s)
  | some o =>
    if !(decide (o.customer = actor.id) || actor.isAdmin) then (.error .accessDenied, s)
    else if !o.canBeCancelled then (.error .invalidTransition, s)
    else
      let o1 :=
        { o with status := .cancelled,
                 cancellation := some
                   { reason := reason, cancelledBy := actor.id,
                     cancelledAt := now, refundStatus := .pending } }
      let ps1 := restoreItems o.items s.products
      let o2 := applySaveHook o o1 now
      (.ok o2, { s with products := ps1, orders := saveOrder s.orders o2 })

inductive ReviewError where
  | notEligible
  | duplicateReview
  | notFound
  | alreadyVoted
  deriving Repr, DecidableEq

/-- `Order.findOne({_id, customer, status: 'delivered', 'items.product': productId})`
(reviews.js:18-23). -/
def findEligibleOrder (os : List Order) (orderId customerId productId : ℕ) :
    Option Order :=
  (findOrder os orderId).bind fun o =>
    if o.customer = customerId ∧ o.status = OrderStatus.delivered ∧
        o.items.any (fun it => it.product = productId) then some o else none

/-- `Review.findOne({customer, product, order})` duplicate test (reviews.js:33-37). -/
def duplicateExists (rs : List Review) (customerId productId orderId : ℕ) : Bool :=
  rs.any fun r =>
    decide (r.customer = customerId) && decide (r.product = productId) &&
      decide (r.order = orderId)

/-- Approved reviews of one product, the `$match` stage of Review.js:150-151. -/
def approvedForProduct (rs : List Review) (productId : ℕ) : List Review :=
  rs.filter fun r => decide (r.product = productId) && decide (r.status = ReviewStatus.approved)

/-- Approved reviews of one seller, the `$match` stage of Review.js:174-175. -/
def approvedForArtisan (rs : List Review) (artisanId : ℕ) : List Review :=
  rs.filter fun r => decide (r.artisan = artisanId) && decide (r.status = ReviewStatus.approved)

def sumOverall (rs : List Review) : ℚ :=
  rs.foldr (fun r acc => r.ratingOverall + acc) 0

/-- The `{average, count}` pair computed by `updateProductRating` (Review.js:146-167):
`Math.round(avg * 10) / 10` on the mean overall rating, `(0, 0)` with no reviews. -/
def aggregateRating (approved : List Review) : ℚ × ℕ :=
  if approved.length = 0 then (0, 0)
  else ((jsRound (sumOverall approved / approved.length * 10) : ℚ) / 10, approved.length)

/-- `updateProductRating(productId)` (Review.js:146-167), including the
`findByIdAndUpdate` write onto the catalog item. -/
def updateProductRating (s : State) (productId : ℕ) : State :=
  match findProduct s.products productId with
  | none => s
  | some p =>
    let r := aggregateRating (approvedForProduct s.reviews productId)
    let p1 := { p with ratingAverage := r.1, ratingCount := r.2 }
    { s with products := saveProduct s.products p1 }

/-- `updateArtisanRating(artisanId)` (Review.js:170-191). -/
def updateArtisanRating (s : State) (artisanId : ℕ) : State :=
  match findArtisan s.artisans artisanId with
  | none => s
  | some a =>
    let r := aggregateRating (approvedForArtisan s.reviews artisanId)
    let a1 := { a with ratingAverage := r.1, ratingCount := r.2 }
    { s with artisans := saveArtisan s.artisans a1 }

/-- The `post('save')` / `post('remove')` recomputation of both aggregates
(Review.js:135-143). -/
def recomputeRatings (s : State) (productId artisanId : ℕ) : State :=
  updateArtisanRating (updateProductRating s productId) artisanId

/-- `POST /api/reviews` (reviews.js:12-84): eligibility check, duplicate check,
persist the review (status defaults to `approved`), then recompute ratings. -/
def createReview (s : State) (customerId productId orderId : ℕ)
    (ratingOverall : ℚ) (comment : String) (newReviewId : ℕ) :
    Except ReviewError Review × State :=
  match findEligibleOrder s.orders orderId customerId productId with
  | none => (.error .notEligible, s)
  | some o =>
    if duplicateExists s.reviews customerId productId orderId then
      (.error .duplicateReview, s)
    else
      match o.items.find? (fun it => it.product = productId) with
      | none => (.error .notEligible, s)
      | some oi =>
        let r : Review :=
          { id := newReviewId, product := productId, artisan := oi.artisan,
            customer := customerId, order := orderId,
            ratingOverall := ratingOverall, comment := comment,
            status := .approved, helpfulVotes := 0, votedBy := [] }
        let s1 := { s with reviews := s.reviews ++ [r] }
        (.ok r, recomputeRatings s1 productId oi.artisan)

/-- `Review.findOne({_id, customer})` (reviews.js:204-207 and 252-255). -/
def findReviewOwned (rs : List Review) (reviewId customerId : ℕ) : Option Review :=
  (findReview rs reviewId).bind fun r =>
    if r.customer = customerId then some r else none

/-- `PUT /api/reviews/:id` (reviews.js:202-245), restricted to the rating and
comment fields of the allowed-updates list; `save()` recomputes ratings. -/
def updateReview (s : State) (reviewId customerId : ℕ)
    (newRating : Option ℚ) (newComment : Option String) :
    Except ReviewError Review × State :=
  match findReviewOwned s.reviews reviewId customerId with
  | none => (.error .notFound, s)
  | some r =>
    let r1 := { r with ratingOverall := newRating.getD r.ratingOverall,
                       comment := newComment.getD r.comment }
    let s1 := { s with reviews := saveReview s.reviews r1 }
    (.ok r1, recomputeRatings s1 r1.product r1.artisan)

/-- `review.remove()`: drop the first review with this id. -/
def removeReview : List Review → ℕ → List Review
  | [], _ => []
  | r :: rs, i => if r.id = i then rs else r :: removeReview rs i

/-- `DELETE /api/reviews/:id` (reviews.js:250-277); `remove()` recomputes ratings. -/
def deleteReview (s : State) (reviewId customerId : ℕ) :
    Except ReviewError Unit × State :=
  match findReviewOwned s.reviews reviewId customerId with
  | none => (.error .notFound, s)
  | some r =>
    let s1 := { s with reviews := removeReview s.reviews r.id }
    (.ok (), recomputeRatings s1 r.product r.artisan)

/-- `POST /api/reviews/:id/helpful` (reviews.js:282-315): `canVote` guard, then
`addVote` (Review.js:199-208) which appends the vote, bumps the tally iff
`helpful`, and saves (firing the rating hook). -/
def addHelpfulVote (s : State) (reviewId userId : ℕ) (helpful : Bool) (now : ℤ) :
    Except ReviewError Review × State :=
  match findReview s.reviews reviewId with
  | none => (.error .notFound, s)
  | some r =>
    if !(r.canVote userId) then (.error .alreadyVoted, s)
    else
      let r1 :=
        { r with votedBy := r.votedBy ++ [{ user := userId, helpful := helpful, votedAt := now }],
                 helpfulVotes := r.helpfulVotes + (if helpful then 1 else 0) }
      let s1 := { s with reviews := saveReview s.reviews r1 }
      (.ok r1, recomputeRatings s1 r1.product r1.artisan)

/-! Specification-side helper functions used to state the claims. -/

/-- Total quantity requested for one product id across an order request. -/
def reqQty (req : List ReqItem) (i : ℕ) : ℤ :=
  (req.filter fun it => decide (it.product = i)).foldr (fun it acc => it.quantity + acc) 0

/-- Effect of one processed request line on the product it names. -/
def applyLine (it : ReqItem) (p : Product) : Product :=
  if p.trackInventory then
    { p with quantity := p.quantity - it.quantity, totalSold := p.totalSold + it.quantity }
  else p

/-- Net effect of a fully successful order creation on one product record. -/
def decrementFor (req : List ReqItem) (p : Product) : Product :=
  if p.trackInventory then
    { p with quantity := p.quantity - reqQty req p.id,
             totalSold := p.totalSold + reqQty req p.id }
  else p

/-- Total quantity a stored order carries for one product id. -/
def orderQty (items : List OrderItem) (i : ℕ) : ℤ :=
  (items.filter fun it => decide (it.product = i)).foldr (fun it acc => it.quantity + acc) 0

/-- Net effect of a cancellation's restore loop on one product record. -/
def incrementFor (items : List OrderItem) (p : Product) : Product :=
  if p.trackInventory then
    { p with quantity := p.quantity + orderQty items p.id,
             totalSold := p.totalSold - orderQty items p.id }
  else p

/-- The line item the create handler builds for one request line. -/
def mkOrderItem (ps : List Product) (it : ReqItem) : OrderItem :=
  match findProduct ps it.product with
  | some p =>
    { product := p.id, artisan := p.artisan, quantity := it.quantity,
      price := p.discountedPrice }
  | none => { product := it.product, artisan := 0, quantity := it.quantity, price := 0 }

/-- Sum of discounted-unit-price times quantity over the stored line items. -/
def itemsSubtotal (items : List OrderItem) : ℚ :=
  items.foldr (fun oi acc => oi.price * oi.quantity + acc) 0

/-- Rounding to one decimal place, spelled from the spec's words. -/
def specRound1 (x : ℚ) : ℚ := (⌊10 * x + 1 / 2⌋ : ℚ) / 10

/-- Arithmetic mean of the overall ratings, rounded to one decimal place;
0 for an empty review list. -/
def specAverage (rs : List Review) : ℚ :=
  if rs.length = 0 then 0 else specRound1 (sumOverall rs / rs.length)

/-- Two reviews agree on the (buyer, catalog item, order) triple. -/
def sameTriple (a b : Review) : Prop :=
  a.customer = b.customer ∧ a.product = b.product ∧ a.order = b.order

/-- At most one review record per (buyer, catalog item, order) triple. -/
def atMostOnePerTriple (rs : List Review) : Prop :=
  List.Pairwise (fun a b => ¬ sameTriple a b) rs

/-! Concrete fixtures used by the witness theorems. -/

def dummyProduct : Product :=
  { id := 0, artisan := 0, isActive := false, trackInventory := false,
    quantity := 0, totalSold := 0, priceAmount := 0, priceDiscount := none,
    ratingAverage := 0, ratingCount := 0 }

def dummyArtisan : Artisan := { id := 0, ratingAverage := 0, ratingCount := 0 }

def dummyOrder : Order :=
  { id := 0, customer := 0, items := [],
    pricing := { subtotal := 0, shippingCost := 0, tax := 0, discountAmount := 0, totalAmount := 0 },
    paymentMethod := .cod, paymentStatus := .pending, status := .pending,
    timeline := [], actualDelivery := none, createdAt := 0, cancellation := none }

/-- Tracked, active item: price 100, no discount, 10 in stock. -/
def pA : Product :=
  { id := 1, artisan := 11, isActive := true, trackInventory := true,
    quantity := 10, totalSold := 0, priceAmount := 100, priceDiscount := none,
    ratingAverage := 0, ratingCount := 0 }

/-- Tracked, active item with no discount, 5 in stock. -/
def pB : Product :=
  { id := 2, artisan := 12, isActive := true, trackInventory := true,
    quantity := 5, totalSold := 2, priceAmount := 50, priceDiscount := none,
    ratingAverage := 0, ratingCount := 0 }

/-- Untracked, active item. -/
def pC : Product :=
  { id := 3, artisan := 11, isActive := true, trackInventory := false,
    quantity := 0, totalSold := 4, priceAmount := 20, priceDiscount := none,
    ratingAverage := 0, ratingCount := 0 }

/-- Tracked, active item that is out of stock. -/
def pZero : Product :=
  { id := 4, artisan := 12, isActive := true, trackInventory := true,
    quantity := 0, totalSold := 0, priceAmount := 30, priceDiscount := none,
    ratingAverage := 0, ratingCount := 0 }

def artA : Artisan := { id := 11, ratingAverage := 0, ratingCount := 0 }

def artB : Artisan := { id := 12, ratingAverage := 0, ratingCount := 0 }

def buyer7 : UserRec := { id := 7, isAdmin := false, cart := [{ product := 1, quantity := 2 }] }

/-- Base store for the order-lifecycle witnesses. -/
def exS : State :=
  { products := [pA, pB, pC, pZero], artisans := [artA, artB],
    orders := [], reviews := [], users := [buyer7] }

def exReq : List ReqItem := [{ product := 1, quantity := 3 }]

def exCreateRes : Except OrderError Order × State := createOrder exS 7 exReq .cod 42 1000

def exOrder1 : Order := exCreateRes.1.toOption.getD dummyOrder

def exState1 : State := exCreateRes.2

def exCancelRes : Except OrderError Order × State :=
  cancelOrder exState1 42 (some "changed my mind") { id := 7, isAdmin := false } 2000

/-- A delivered order over item 1, used by the review witnesses. -/
def exDelOrder : Order :=
  { id := 5, customer := 7,
    items := [{ product := 1, artisan := 11, quantity := 2, price := 100 }],
    pricing := { subtotal := 200, shippingCost := 0, tax := 36, discountAmount := 0, totalAmount := 236 },
    paymentMethod := .cod, paymentStatus := .pending, status := .delivered,
    timeline := [], actualDelivery := some 1000, createdAt := 500, cancellation := none }

/-- Base store for the review witnesses. -/
def exRevS : State :=
  { products := [pA], artisans := [artA], orders := [exDelOrder],
    reviews := [], users := [buyer7] }

def exReviewRes : Except ReviewError Review × State :=
  createReview exRevS 7 1 5 4 "lovely piece" 21

def exReview : Review := exReviewRes.1.toOption.getD
  { id := 0, product := 0, artisan := 0, customer := 0, order := 0,
    ratingOverall := 0, comment := "", status := .approved, helpfulVotes := 0, votedBy := [] }

def exRevState : State := exReviewRes.2

/-- Catalog item and seller records as stored after the witness review run. -/
def exProdAfter : Product := (findProduct exRevState.products 1).getD dummyProduct

def exArtAfter : Artisan := (findArtisan exRevState.artisans 11).getD dummyArtisan

/-- A review that already carries one helpful vote, for the vote witnesses. -/
def exVotedReview : Review :=
  { id := 30, product := 1, artisan := 11, customer := 7, order := 5,
    ratingOverall := 5, comment := "great", status := .approved,
    helpfulVotes := 1, votedBy := [{ user := 9, helpful := true, votedAt := 100 }] }

def exVoteS : State :=
  { products := [pA], artisans := [artA], orders := [exDelOrder],
    reviews := [exVotedReview], users := [buyer7] }

/-- A pending order used by the status/cancel witnesses. -/
def exPendingOrder : Order :=
  { id := 6, customer := 7,
    items := [{ product := 1, artisan := 11, quantity := 1, price := 100 }],
    pricing := { subtotal := 100, shippingCost := 0, tax := 18, discountAmount := 0, totalAmount := 118 },
    paymentMethod := .cod, paymentStatus := .pending, status := .pending,
    timeline := [], actualDelivery := none, createdAt := 100, cancellation := none }

/-- A shipped order, not cancellable. -/
def exShippedOrder : Order :=
  { exPendingOrder with id := 8, status := .shipped }

def exOrderS : State :=
  { products := [pA], artisans := [artA], orders := [exPendingOrder, exShippedOrder],
    users := [buyer7], reviews := [] }

/-- Product list carried by a loop outcome. -/
def LoopResult.productsOf : LoopResult → List Product
  | .ok ps _ _ => ps
  | .fail _ ps => ps

/-- Subtotal carried by a successful loop outcome. -/
def LoopResult.subtotalOf : LoopResult → ℚ
  | .ok _ sub _ => sub
  | .fail _ _ => 0

/-- Line items carried by a successful loop outcome. -/
def LoopResult.itemsOf : LoopResult → List OrderItem
  | .ok _ _ its => its
  | .fail _ _ => []

/-- The per-line validation verdict of the create handler (orders.js:25-37). -/
def lineError (ps : List Product) (it : ReqItem) : Option OrderError :=
  match findProduct ps it.product with
  | none => some (.itemUnavailable it.product)
  | some p =>
    if !p.isActive then some (.itemUnavailable it.product)
    else if !(p.isAvailable it.quantity) then some (.insufficientStock it.product)
    else none

/-- The catalog item's stored rating agrees with the aggregation of the
approved reviews currently in the store. -/
def ratingInvariantProduct (s : State) (pid : ℕ) : Prop :=
  ∀ p, findProduct s.products pid = some p →
    p.ratingAverage = specAverage (approvedForProduct s.reviews pid) ∧
    p.ratingCount = (approvedForProduct s.reviews pid).length

/-- The seller record's stored rating agrees with the aggregation of the
approved reviews currently in the store. -/
def ratingInvariantArtisan (s : State) (aid : ℕ) : Prop :=
  ∀ a, findArtisan s.artisans aid = some a →
    a.ratingAverage = specAverage (approvedForArtisan s.reviews aid) ∧
    a.ratingCount = (approvedForArtisan s.reviews aid).length

/-! Lemmas about the record stores. -/

theorem findProduct_eq_id {ps : List Product} {i : ℕ} {p : Product}
    (h : findProduct ps i = some p) : p.id = i := by
  induction ps with
  | nil => simp [findProduct] at h
  | cons q ps ih =>
    by_cases hq : q.id = i
    · simp [findProduct, hq] at h
      rw [← h]; exact hq
    · simp [findProduct, hq] at h
      exact ih h

theorem findProduct_saveProduct (ps : List Product) (q : Product) (i : ℕ) :
    findProduct (saveProduct ps q) i =
      if i = q.id ∧ (findProduct ps q.id).isSome then some q else findProduct ps i := by
  induction ps with
  | nil => simp [findProduct, saveProduct]
  | cons p ps ih =>
    by_cases hpq : p.id = q.id
    · by_cases hiq : i = q.id
      · simp [saveProduct, hpq, findProduct, hiq]
      · have hqi : ¬ q.id = i := fun h => hiq h.symm
        simp [saveProduct, hpq, findProduct, hiq, hqi]
    · by_cases hpi : p.id = i
      · have hiq : ¬ i = q.id := fun h => hpq (hpi.trans h)
        simp [saveProduct, hpq, findProduct, hpi, hiq]
      · simp [saveProduct, hpq, findProduct, hpi, ih]

theorem findOrder_eq_id {os : List Order} {i : ℕ} {o : Order}
    (h : findOrder os i = some o) : o.id = i := by
  induction os with
  | nil => simp [findOrder] at h
  | cons q os ih =>
    by_cases hq : q.id = i
    · simp [findOrder, hq] at h
      rw [← h]; exact hq
    · simp [findOrder, hq] at h
      exact ih h

theorem findOrder_saveOrder (os : List Order) (q : Order) (i : ℕ) :
    findOrder (saveOrder os q) i =
      if i = q.id ∧ (findOrder os q.id).isSome then some q else findOrder os i := by
  induction os with
  | nil => simp [findOrder, saveOrder]
  | cons o os ih =>
    by_cases hoq : o.id = q.id
    · by_cases hiq : i = q.id
      · simp [saveOrder, hoq, findOrder, hiq]
      · have hqi : ¬ q.id = i := fun h => hiq h.symm
        simp [saveOrder, hoq, findOrder, hiq, hqi]
    · by_cases hoi : o.id = i
      · have hiq : ¬ i = q.id := fun h => hoq (hoi.trans h)
        simp [saveOrder, hoq, findOrder, hoi, hiq]
      · simp [saveOrder, hoq, findOrder, hoi, ih]

theorem findOrder_append (os : List Order) (o : Order) (i : ℕ)
    (hfresh : findOrder os i = none) :
    findOrder (os ++ [o]) i = if o.id = i then some o else none := by
  induction os with
  | nil => simp [findOrder]
  | cons q os ih =>
    by_cases hq : q.id = i
    · simp [findOrder, hq] at hfresh
    · simp [findOrder, hq] at hfresh ⊢
      exact ih hfresh

theorem findArtisan_saveArtisan (as : List Artisan) (q : Artisan) (i : ℕ) :
    findArtisan (saveArtisan as q) i =
      if i = q.id ∧ (findArtisan as q.id).isSome then some q else findArtisan as i := by
  induction as with
  | nil => simp [findArtisan, saveArtisan]
  | cons a as ih =>
    by_cases haq : a.id = q.id
    · by_cases hiq : i = q.id
      · simp [saveArtisan, haq, findArtisan, hiq]
      · have hqi : ¬ q.id = i := fun h => hiq h.symm
        simp [saveArtisan, haq, findArtisan, hiq, hqi]
    · by_cases hai : a.id = i
      · have hiq : ¬ i = q.id := fun h => haq (hai.trans h)
        simp [saveArtisan, haq, findArtisan, hai, hiq]
      · simp [saveArtisan, haq, findArtisan, hai, ih]

/-! Lemmas about the per-line inventory effects. -/

theorem applyLine_tracked {it : ReqItem} {p : Product} (ht : p.trackInventory = true) :
    ({ p with quantity := p.quantity - it.quantity,
              totalSold := p.totalSold + it.quantity } : Product) = applyLine it p := by
  simp [applyLine, ht]

theorem applyLine_id (it : ReqItem) (p : Product) : (applyLine it p).id = p.id := by
  unfold applyLine; split <;> rfl

theorem applyLine_artisan (it : ReqItem) (p : Product) :
    (applyLine it p).artisan = p.artisan := by
  unfold applyLine; split <;> rfl

theorem applyLine_trackInventory (it : ReqItem) (p : Product) :
    (applyLine it p).trackInventory = p.trackInventory := by
  unfold applyLine; split <;> rfl

theorem applyLine_discountedPrice (it : ReqItem) (p : Product) :
    (applyLine it p).discountedPrice = p.discountedPrice := by
  unfold applyLine; split <;> rfl

theorem reqQty_nil (i : ℕ) : reqQty [] i = 0 := rfl

theorem reqQty_cons (it : ReqItem) (rest : List ReqItem) (i : ℕ) :
    reqQty (it :: rest) i = (if it.product = i then it.quantity else 0) + reqQty rest i := by
  unfold reqQty
  by_cases h : it.product = i <;> simp [List.filter_cons, h]

theorem decrementFor_nil (p : Product) : decrementFor [] p = p := by
  unfold decrementFor
  split <;> simp [reqQty_nil]

theorem decrementFor_untracked {req : List ReqItem} {p : Product}
    (h : p.trackInventory = false) : decrementFor req p = p := by
  simp [decrementFor, h]

theorem decrementFor_cons_hit {it : ReqItem} (rest : List ReqItem) {p : Product}
    (h : p.id = it.product) :
    decrementFor (it :: rest) p = decrementFor rest (applyLine it p) := by
  cases p with
  | mk id artisan isActive trackInventory quantity totalSold pa pd ra rc =>
    by_cases ht : trackInventory <;>
      simp [decrementFor, applyLine, ht, reqQty_cons, h.symm] <;> omega

theorem decrementFor_cons_miss {it : ReqItem} (rest : List ReqItem) {p : Product}
    (h : ¬ p.id = it.product) :
    decrementFor (it :: rest) p = decrementFor rest p := by
  have h2 : ¬ it.product = p.id := fun hh => h hh.symm
  by_cases ht : p.trackInventory <;>
    simp [decrementFor, ht, reqQty_cons, h2]

theorem orderQty_nil (i : ℕ) : orderQty [] i = 0 := rfl

theorem orderQty_cons (it : OrderItem) (rest : List OrderItem) (i : ℕ) :
    orderQty (it :: rest) i = (if it.product = i then it.quantity else 0) + orderQty rest i := by
  unfold orderQty
  by_cases h : it.product = i <;> simp [List.filter_cons, h]

theorem incrementFor_nil (p : Product) : incrementFor [] p = p := by
  unfold incrementFor
  split <;> simp [orderQty_nil]

theorem incrementFor_cons_hit {it : OrderItem} (rest : List OrderItem) {p : Product}
    (h : p.id = it.product) :
    incrementFor (it :: rest) p =
      incrementFor rest
        (if p.trackInventory then
          { p with quantity := p.quantity + it.quantity,
                   totalSold := p.totalSold - it.quantity }
        else p) := by
  cases p with
  | mk id artisan isActive trackInventory quantity totalSold pa pd ra rc =>
    by_cases ht : trackInventory <;>
      simp [incrementFor, ht, orderQty_cons, h.symm] <;> omega

theorem incrementFor_cons_miss {it : OrderItem} (rest : List OrderItem) {p : Product}
    (h : ¬ p.id = it.product) :
    incrementFor (it :: rest) p = incrementFor rest p := by
  have h2 : ¬ it.product = p.id := fun hh => h hh.symm
  by_cases ht : p.trackInventory <;>
    simp [incrementFor, ht, orderQty_cons, h2]

theorem incrementFor_decrementFor (req : List ReqItem) (items : List OrderItem)
    (p : Product) (h : orderQty items p.id = reqQty req p.id) :
    incrementFor items (decrementFor req p) = p := by
  cases p with
  | mk id artisan isActive trackInventory quantity totalSold pa pd ra rc =>
    by_cases ht : trackInventory <;>
      simp [incrementFor, decrementFor, ht] at h ⊢
    omega

theorem mkOrderItem_product (ps : List Product) (it : ReqItem) :
    (mkOrderItem ps it).product = it.product := by
  cases hf : findProduct ps it.product with
  | none => simp [mkOrderItem, hf]
  | some p => simp [mkOrderItem, hf]; exact findProduct_eq_id hf

theorem mkOrderItem_quantity (ps : List Product) (it : ReqItem) :
    (mkOrderItem ps it).quantity = it.quantity := by
  cases hf : findProduct ps it.product <;> simp [mkOrderItem, hf]

theorem orderQty_map_mkOrderItem (req : List ReqItem) (ps : List Product) (i : ℕ) :
    orderQty (req.map (mkOrderItem ps)) i = reqQty req i := by
  induction req with
  | nil => rfl
  | cons it rest ih =>
    simp only [List.map_cons, orderQty_cons, reqQty_cons, mkOrderItem_product,
      mkOrderItem_quantity, ih]

theorem mkOrderItem_save_invariant (ps : List Product) {p : Product} (pDec : Product)
    (hfind : findProduct ps pDec.id = some p)
    (hart : pDec.artisan = p.artisan) (hprice : pDec.discountedPrice = p.discountedPrice)
    (it2 : ReqItem) :
    mkOrderItem (saveProduct ps pDec) it2 = mkOrderItem ps it2 := by
  have hpid : p.id = pDec.id := findProduct_eq_id hfind
  unfold mkOrderItem
  rw [findProduct_saveProduct]
  by_cases hc : it2.product = pDec.id
  · rw [if_pos ⟨hc, by rw [hfind]; rfl⟩, hc, hfind]
    simp [hart, hprice, hpid]
  · rw [if_neg (fun hh => hc hh.1)]

/-- Full characterization of a successful run of the create handler's item loop:
every product record ends up with the net decrement of the whole request applied,
the stored line items are the per-line snapshots taken from the initial catalog,
and the subtotal is the sum of price-times-quantity over those line items. -/
theorem processItems_ok_spec : ∀ (req : List ReqItem) (ps ps1 : List Product)
    (sub : ℚ) (items : List OrderItem),
    processItems req ps = .ok ps1 sub items →
    (∀ i, findProduct ps1 i = (findProduct ps i).map (decrementFor req)) ∧
    items = req.map (mkOrderItem ps) ∧ sub = itemsSubtotal items := by
  intro req
  induction req with
  | nil =>
    intro ps ps1 sub items h
    simp only [processItems, LoopResult.ok.injEq] at h
    obtain ⟨h1, h2, h3⟩ := h
    subst h1; subst h2; subst h3
    refine ⟨fun i => ?_, rfl, rfl⟩
    cases hfi : findProduct ps i <;> simp [decrementFor_nil]
  | cons it rest ih =>
    intro ps ps1 sub items h
    simp only [processItems] at h
    split at h
    · exact absurd h (by simp)
    · rename_i p hf
      have hid : p.id = it.product := findProduct_eq_id hf
      split at h
      · exact absurd h (by simp)
      · rename_i hact'
        split at h
        · exact absurd h (by simp)
        · rename_i hav'
          split at h
          · rename_i ps2 sub2 items2 hrec
            simp only [LoopResult.ok.injEq] at h
            obtain ⟨hps, hsub, hitems⟩ := h
            subst hps
            by_cases ht : p.trackInventory
            · rw [if_pos ht] at hrec
              obtain ⟨ihfind, ihitems, ihsub⟩ := ih _ _ _ _ hrec
              have hsave : ∀ j, findProduct
                  (saveProduct ps
                    ({ p with quantity := p.quantity - it.quantity,
                              totalSold := p.totalSold + it.quantity })) j =
                  if j = it.product then
                    some ({ p with quantity := p.quantity - it.quantity,
                                   totalSold := p.totalSold + it.quantity })
                  else findProduct ps j := by
                intro j
                rw [findProduct_saveProduct]
                by_cases hj : j = it.product
                · refine (if_pos ⟨?_, ?_⟩).trans (if_pos hj).symm
                  · show j = p.id
                    rw [hid]; exact hj
                  · show (findProduct ps p.id).isSome = true
                    rw [hid, hf]; rfl
                · refine (if_neg ?_).trans (if_neg hj).symm
                  intro hc
                  exact hj ((show j = p.id from hc.1).trans hid)
              refine ⟨fun i => ?_, ?_, ?_⟩
              · rw [ihfind i, hsave i]
                by_cases hi : i = it.product
                · rw [if_pos hi, hi, hf]
                  simp only [Option.map_some']
                  rw [applyLine_tracked ht, ← decrementFor_cons_hit rest hid]
                · rw [if_neg hi]
                  cases hfi : findProduct ps i with
                  | none => simp
                  | some r =>
                    have hr : r.id = i := findProduct_eq_id hfi
                    simp only [Option.map_some', Option.some.injEq]
                    rw [decrementFor_cons_miss rest (by rw [hr]; exact hi)]
              · rw [← hitems, ihitems]
                have hmk : ∀ it2 : ReqItem,
                    mkOrderItem
                      (saveProduct ps
                        ({ p with quantity := p.quantity - it.quantity,
                                  totalSold := p.totalSold + it.quantity })) it2 =
                    mkOrderItem ps it2 := by
                  intro it2
                  refine @mkOrderItem_save_invariant ps p
                    ({ p with quantity := p.quantity - it.quantity,
                              totalSold := p.totalSold + it.quantity }) ?_ rfl rfl it2
                  show findProduct ps p.id = some p
                  rw [hid]; exact hf
                simp only [List.map_cons, List.map_congr_left (fun a _ => hmk a)]
                congr 1
                simp [mkOrderItem, hf]
              · rw [← hsub, ihsub, ← hitems, ihitems]
                simp [itemsSubtotal, mkOrderItem, hf]
            · rw [if_neg ht] at hrec
              have htf : p.trackInventory = false := by simpa using ht
              obtain ⟨ihfind, ihitems, ihsub⟩ := ih _ _ _ _ hrec
              refine ⟨fun i => ?_, ?_, ?_⟩
              · rw [ihfind i]
                cases hfi : findProduct ps i with
                | none => simp
                | some r =>
                  simp only [Option.map_some', Option.some.injEq]
                  by_cases hi : i = it.product
                  · have hrp : r = p := by
                      rw [hi, hf] at hfi
                      exact ((Option.some.injEq _ _).mp hfi).symm
                    subst hrp
                    rw [decrementFor_untracked htf, decrementFor_untracked htf]
                  · have hr : r.id = i := findProduct_eq_id hfi
                    rw [decrementFor_cons_miss rest (by rw [hr]; exact hi)]
              · rw [← hitems, ihitems]
                congr 1
                simp [mkOrderItem, hf]
              · rw [← hsub, ihsub, ← hitems, ihitems]
                simp [itemsSubtotal, mkOrderItem, hf]
          · exact absurd h (by simp)

/-- A failing run of the item loop leaves every untracked product record intact. -/
theorem processItems_fail_untracked : ∀ (req : List ReqItem) (ps : List Product)
    (e : OrderError) (ps1 : List Product),
    processItems req ps = .fail e ps1 → ∀ i p, findProduct ps i = some p →
    p.trackInventory = false → findProduct ps1 i = some p := by
  intro req
  induction req with
  | nil =>
    intro ps e ps1 h
    simp [processItems] at h
  | cons it rest ih =>
    intro ps e ps1 h i p hfp htf
    simp only [processItems] at h
    split at h
    · simp only [LoopResult.fail.injEq] at h
      rw [← h.2]; exact hfp
    · rename_i q hf
      have hqid : q.id = it.product := findProduct_eq_id hf
      split at h
      · simp only [LoopResult.fail.injEq] at h
        rw [← h.2]; exact hfp
      · split at h
        · simp only [LoopResult.fail.injEq] at h
          rw [← h.2]; exact hfp
        · split at h
          · exact absurd h (by simp)
          · rename_i e2 ps2 hrec
            simp only [LoopResult.fail.injEq] at h
            obtain ⟨he, hps⟩ := h
            subst hps
            by_cases htq : q.trackInventory
            · rw [if_pos htq] at hrec
              refine ih _ _ _ hrec i p ?_ htf
              rw [findProduct_saveProduct]
              by_cases hi : i = it.product
              · rw [hi, hf] at hfp
                have hpq : q = p := (Option.some.injEq _ _).mp hfp
                rw [← hpq] at htf
                rw [htf] at htq
                exact absurd htq (by simp)
              · rw [if_neg (fun hc => hi ((show i = q.id from hc.1).trans hqid))]
                exact hfp
            · rw [if_neg htq] at hrec
              exact ih _ _ _ hrec i p hfp htf

/-- Prepending an already-successful prefix to a failing suffix yields the
suffix failure, with the prefix decrements retained. -/
theorem processItems_prefix_fail : ∀ (done : List ReqItem) (ps ps0 : List Product)
    (sub0 : ℚ) (items0 : List OrderItem) (more : List ReqItem) (e : OrderError)
    (ps1 : List Product),
    processItems done ps = .ok ps0 sub0 items0 →
    processItems more ps0 = .fail e ps1 →
    processItems (done ++ more) ps = .fail e ps1 := by
  intro done
  induction done with
  | nil =>
    intro ps ps0 sub0 items0 more e ps1 h hm
    simp only [processItems, LoopResult.ok.injEq] at h
    rw [← h.1] at hm
    simpa using hm
  | cons it rest ih =>
    intro ps ps0 sub0 items0 more e ps1 h hm
    simp only [processItems] at h
    split at h
    · exact absurd h (by simp)
    · rename_i p hf
      split at h
      · exact absurd h (by simp)
      · rename_i hact'
        split at h
        · exact absurd h (by simp)
        · rename_i hav'
          split at h
          · rename_i ps2 sub2 items2 hrec
            simp only [LoopResult.ok.injEq] at h
            have hm2 : processItems more ps2 = .fail e ps1 := by
              rw [h.1]; exact hm
            rw [List.cons_append]
            simp only [processItems, hf]
            rw [if_neg hact', if_neg hav', ih _ _ _ _ more e ps1 hrec hm2]
          · exact absurd h (by simp)

/-- The cancel handler's restore loop applies the net increment of the order's
line items to every product record. -/
theorem restoreItems_find : ∀ (items : List OrderItem) (ps : List Product) (i : ℕ),
    findProduct (restoreItems items ps) i = (findProduct ps i).map (incrementFor items) := by
  intro items
  induction items with
  | nil =>
    intro ps i
    simp only [restoreItems]
    cases hfi : findProduct ps i <;> simp [incrementFor_nil]
  | cons it rest ih =>
    intro ps i
    simp only [restoreItems]
    split
    · rename_i hf
      rw [ih]
      cases hfi : findProduct ps i with
      | none => rfl
      | some r =>
        simp only [Option.map_some', Option.some.injEq]
        have hr : r.id = i := findProduct_eq_id hfi
        by_cases hi : i = it.product
        · rw [hi, hf] at hfi
          exact absurd hfi (by simp)
        · rw [incrementFor_cons_miss rest (by rw [hr]; exact hi)]
    · rename_i p hf
      have hid : p.id = it.product := findProduct_eq_id hf
      by_cases ht : p.trackInventory
      · rw [if_pos ht, ih, findProduct_saveProduct]
        by_cases hi : i = it.product
        · have hc1 : i = p.id := by rw [hid]; exact hi
          have hc2 : (findProduct ps p.id).isSome = true := by rw [hid, hf]; rfl
          rw [if_pos ⟨hc1, hc2⟩, hi, hf]
          simp only [Option.map_some', Option.some.injEq]
          rw [incrementFor_cons_hit rest hid, if_pos ht]
        · rw [if_neg (fun hc => hi ((show i = p.id from hc.1).trans hid))]
          cases hfi : findProduct ps i with
          | none => rfl
          | some r =>
            simp only [Option.map_some', Option.some.injEq]
            rw [incrementFor_cons_miss rest (by rw [findProduct_eq_id hfi]; exact hi)]
      · rw [if_neg ht, ih]
        have htf : p.trackInventory = false := by simpa using ht
        cases hfi : findProduct ps i with
        | none => rfl
        | some r =>
          simp only [Option.map_some', Option.some.injEq]
          by_cases hi : i = it.product
          · have hrp : r = p := by
              rw [hi, hf] at hfi
              exact ((Option.some.injEq _ _).mp hfi).symm
            subst hrp
            rw [incrementFor_cons_hit rest hid, if_neg ht]
          · rw [incrementFor_cons_miss rest (by rw [findProduct_eq_id hfi]; exact hi)]

theorem findArtisan_eq_id {as : List Artisan} {i : ℕ} {a : Artisan}
    (h : findArtisan as i = some a) : a.id = i := by
  induction as with
  | nil => simp [findArtisan] at h
  | cons q as ih =>
    by_cases hq : q.id = i
    · simp [findArtisan, hq] at h
      rw [← h]; exact hq
    · simp [findArtisan, hq] at h
      exact ih h

theorem incrementFor_untracked {items : List OrderItem} {p : Product}
    (h : p.trackInventory = false) : incrementFor items p = p := by
  simp [incrementFor, h]

theorem applySaveHook_id (orig o : Order) (now : ℤ) :
    (applySaveHook orig o now).id = o.id := by
  unfold applySaveHook; split <;> rfl

theorem applySaveHook_pricing (orig o : Order) (now : ℤ) :
    (applySaveHook orig o now).pricing = o.pricing := by
  unfold applySaveHook; split <;> rfl

theorem applySaveHook_status (orig o : Order) (now : ℤ) :
    (applySaveHook orig o now).status = o.status := by
  unfold applySaveHook; split <;> rfl

theorem applySaveHook_cancellation (orig o : Order) (now : ℤ) :
    (applySaveHook orig o now).cancellation = o.cancellation := by
  unfold applySaveHook; split <;> rfl

theorem applySaveHook_items (orig o : Order) (now : ℤ) :
    (applySaveHook orig o now).items = o.items := by
  unfold applySaveHook; split <;> rfl

theorem applySaveHook_actualDelivery (orig o : Order) (now : ℤ) :
    (applySaveHook orig o now).actualDelivery = o.actualDelivery := by
  unfold applySaveHook; split <;> rfl

theorem findOrder_saveOrder_pricing (os : List Order) (q : Order) (i : ℕ) (o : Order)
    (hq : findOrder os q.id = some o) (hpr : q.pricing = o.pricing) :
    (findOrder (saveOrder os q) i).map Order.pricing =
      (findOrder os i).map Order.pricing := by
  rw [findOrder_saveOrder]
  by_cases hc : i = q.id
  · rw [if_pos ⟨hc, by rw [hq]; rfl⟩, hc, hq]
    simp [hpr]
  · rw [if_neg (fun hh => hc hh.1)]

/-- `PUT /api/orders/:id/status` never touches the pricing summary of any stored order. -/
theorem updateStatus_pricing_preserved (t : State) (oid : ℕ) (ns : OrderStatus)
    (note : Option String) (actor : Actor) (n2 : ℤ) (i : ℕ) :
    (findOrder (updateStatus t oid ns note actor n2).2.orders i).map Order.pricing =
      (findOrder t.orders i).map Order.pricing := by
  unfold updateStatus
  split
  · rfl
  · split
    · rfl
    · rename_i o hfound
      split
      · rfl
      · have hoid : o.id = oid := findOrder_eq_id hfound
        have hkey : ∀ (q : Order), q.id = o.id → q.pricing = o.pricing →
            (findOrder (saveOrder t.orders q) i).map Order.pricing =
              (findOrder t.orders i).map Order.pricing := by
          intro q hqid hqpr
          refine findOrder_saveOrder_pricing _ _ _ o ?_ hqpr
          rw [hqid, hoid]; exact hfound
        split <;> split <;>
          exact hkey _ (by rw [applySaveHook_id]) (by rw [applySaveHook_pricing])

/-- `POST /api/orders/:id/cancel` never touches the pricing summary of any stored order. -/
theorem cancelOrder_pricing_preserved (t : State) (oid : ℕ) (rsn : Option String)
    (actor : Actor) (n2 : ℤ) (i : ℕ) :
    (findOrder (cancelOrder t oid rsn actor n2).2.orders i).map Order.pricing =
      (findOrder t.orders i).map Order.pricing := by
  unfold cancelOrder
  split
  · rfl
  · rename_i o hfound
    split
    · rfl
    · split
      · rfl
      · have hoid : o.id = oid := findOrder_eq_id hfound
        have hkey : ∀ (q : Order), q.id = o.id → q.pricing = o.pricing →
            (findOrder (saveOrder t.orders q) i).map Order.pricing =
              (findOrder t.orders i).map Order.pricing := by
          intro q hqid hqpr
          refine findOrder_saveOrder_pricing _ _ _ o ?_ hqpr
          rw [hqid, hoid]; exact hfound
        exact hkey _ (by rw [applySaveHook_id]) (by rw [applySaveHook_pricing])

theorem aggregateRating_fst (rs : List Review) : (aggregateRating rs).1 = specAverage rs := by
  unfold aggregateRating specAverage specRound1 jsRound
  split
  · rfl
  · have hco : sumOverall rs / (rs.length : ℚ) * 10 = 10 * (sumOverall rs / rs.length) :=
      mul_comm _ _
    simp only [hco]

theorem aggregateRating_snd (rs : List Review) : (aggregateRating rs).2 = rs.length := by
  unfold aggregateRating
  split
  · rename_i h
    simp [h]
  · rfl

theorem updateArtisanRating_products (s : State) (aid : ℕ) :
    (updateArtisanRating s aid).products = s.products := by
  unfold updateArtisanRating; split <;> rfl

theorem updateArtisanRating_reviews (s : State) (aid : ℕ) :
    (updateArtisanRating s aid).reviews = s.reviews := by
  unfold updateArtisanRating; split <;> rfl

theorem updateProductRating_reviews (s : State) (pid : ℕ) :
    (updateProductRating s pid).reviews = s.reviews := by
  unfold updateProductRating; split <;> rfl

theorem updateProductRating_artisans (s : State) (pid : ℕ) :
    (updateProductRating s pid).artisans = s.artisans := by
  unfold updateProductRating; split <;> rfl

theorem recomputeRatings_reviews (s : State) (pid aid : ℕ) :
    (recomputeRatings s pid aid).reviews = s.reviews := by
  unfold recomputeRatings
  rw [updateArtisanRating_reviews, updateProductRating_reviews]

theorem updateProductRating_invariant (s : State) (pid : ℕ) :
    ratingInvariantProduct (updateProductRating s pid) pid := by
  intro p hp
  unfold updateProductRating at hp ⊢
  cases hf : findProduct s.products pid with
  | none =>
    rw [hf] at hp
    simp only at hp
    rw [hp] at hf
    exact absurd hf (by simp)
  | some p0 =>
    have hid : p0.id = pid := findProduct_eq_id hf
    rw [hf] at hp
    simp only at hp
    rw [findProduct_saveProduct] at hp
    rw [if_pos ⟨(show pid = p0.id from hid.symm), (by rw [hid, hf]; rfl)⟩] at hp
    have hpp := ((Option.some.injEq _ _).mp hp).symm
    simp only
    rw [hpp]
    exact ⟨aggregateRating_fst _, aggregateRating_snd _⟩

theorem updateArtisanRating_invariant (s : State) (aid : ℕ) :
    ratingInvariantArtisan (updateArtisanRating s aid) aid := by
  intro a ha
  unfold updateArtisanRating at ha ⊢
  cases hf : findArtisan s.artisans aid with
  | none =>
    rw [hf] at ha
    simp only at ha
    rw [ha] at hf
    exact absurd hf (by simp)
  | some a0 =>
    have hid : a0.id = aid := findArtisan_eq_id hf
    rw [hf] at ha
    simp only at ha
    rw [findArtisan_saveArtisan] at ha
    rw [if_pos ⟨(show aid = a0.id from hid.symm), (by rw [hid, hf]; rfl)⟩] at ha
    have haa := ((Option.some.injEq _ _).mp ha).symm
    simp only
    rw [haa]
    exact ⟨aggregateRating_fst _, aggregateRating_snd _⟩

/-- After the post-save hook pair runs, both stored aggregates agree with the
review store. -/
theorem recomputeRatings_spec (s : State) (pid aid : ℕ) :
    ratingInvariantProduct (recomputeRatings s pid aid) pid ∧
    ratingInvariantArtisan (recomputeRatings s pid aid) aid := by
  constructor
  · unfold ratingInvariantProduct
    intro p hp
    unfold recomputeRatings at hp ⊢
    rw [updateArtisanRating_products] at hp
    rw [updateArtisanRating_reviews]
    exact updateProductRating_invariant s pid p hp
  · unfold ratingInvariantArtisan
    intro a ha
    unfold recomputeRatings at ha ⊢
    exact updateArtisanRating_invariant (updateProductRating s pid) aid a ha

theorem canBeReturned_iff (o : Order) (now : ℤ) :
    o.canBeReturned now = true ↔
      (o.status = OrderStatus.delivered ∧
        now - o.actualDelivery.getD o.createdAt ≤ 7 * 86400000) := by
  unfold Order.canBeReturned
  by_cases hs : o.status = OrderStatus.delivered
  · rw [if_neg (by simp [hs])]
    simp only [decide_eq_true_eq]
    constructor
    · intro hle
      refine ⟨hs, ?_⟩
      have h2 := (div_le_iff (by norm_num : (0:ℚ) < 1000 * 60 * 60 * 24)).mp hle
      have h3 : ((now - o.actualDelivery.getD o.createdAt : ℤ) : ℚ) ≤ 7 * 86400000 := by
        push_cast at h2 ⊢
        linarith
      exact_mod_cast h3
    · intro hc
      rw [div_le_iff (by norm_num : (0:ℚ) < 1000 * 60 * 60 * 24)]
      have h3 : ((now - o.actualDelivery.getD o.createdAt : ℤ) : ℚ) ≤ 7 * 86400000 := by
        exact_mod_cast hc.2
      push_cast at h3 ⊢
      linarith
  · rw [if_pos (by simp [hs])]
    simp [hs]

/-- Claim C7: `canBeReturned` returns true iff the order's status is delivered
and the elapsed time since the actual-delivery timestamp (or, when absent, the
creation time) is at most 7 days; in particular it returns false when exactly
7 days plus 1 second (in milliseconds) have elapsed. -/
theorem claim7_canBeReturned_window :
    (∀ (o : Order) (now : ℤ),
      o.canBeReturned now = true ↔
        (o.status = OrderStatus.delivered ∧
          now - o.actualDelivery.getD o.createdAt ≤ 7 * 86400000)) ∧
    (∀ (o : Order) (now : ℤ),
      o.status = OrderStatus.delivered →
      now - o.actualDelivery.getD o.createdAt = 7 * 86400000 + 1000 →
      o.canBeReturned now = false) := by
  refine ⟨canBeReturned_iff, ?_⟩
  intro o now hs helapsed
  by_contra hne
  have htrue : o.canBeReturned now = true := by
    cases hb : o.canBeReturned now
    · exact absurd hb hne
    · rfl
  have h2 := (canBeReturned_iff o now).mp htrue
  omega

theorem claim7_canBeReturned_window_witness :
    (exDelOrder.canBeReturned 604801000 = true ↔
      (exDelOrder.status = OrderStatus.delivered ∧
        (604801000 : ℤ) - exDelOrder.actualDelivery.getD exDelOrder.createdAt ≤ 7 * 86400000)) ∧
    exDelOrder.canBeReturned 604802000 = false :=
  ⟨claim7_canBeReturned_window.1 exDelOrder 604801000,
   claim7_canBeReturned_window.2 exDelOrder 604802000 (by decide) (by decide)⟩

/-- Claim C4: `canBeCancelled` is true iff the status is pending or confirmed;
cancelling an order in any other status (as the buyer or an admin) fails with
the invalid-transition error and leaves the whole store unchanged; a successful
cancel sets the status to cancelled, stores a cancellation record with refund
status pending, and saves the order. -/
theorem claim4_cancel_guard (s : State) (orderId : ℕ) (reason : Option String)
    (actor : Actor) (now : ℤ) (o : Order)
    (hfound : findOrder s.orders orderId = some o)
    (hperm : (decide (o.customer = actor.id) || actor.isAdmin) = true) :
    (o.canBeCancelled = true ↔
      (o.status = OrderStatus.pending ∨ o.status = OrderStatus.confirmed)) ∧
    (o.canBeCancelled = false →
      cancelOrder s orderId reason actor now = (.error .invalidTransition, s)) ∧
    (o.canBeCancelled = true →
      (cancelOrder s orderId reason actor now).1.isOk = true) ∧
    (o.canBeCancelled = true →
      ∀ o2, (cancelOrder s orderId reason actor now).1 = .ok o2 →
        o2.status = OrderStatus.cancelled ∧
        o2.cancellation = some { reason := reason, cancelledBy := actor.id,
                                 cancelledAt := now, refundStatus := RefundStatus.pending } ∧
        findOrder (cancelOrder s orderId reason actor now).2.orders orderId = some o2) := by
  have hoid : o.id = orderId := findOrder_eq_id hfound
  refine ⟨?_, ?_, ?_, ?_⟩
  · simp [Order.canBeCancelled]
  · intro hc
    unfold cancelOrder
    simp only [hfound]
    rw [if_neg (by simp [hperm]), if_pos (by simp [hc])]
  · intro hc
    unfold cancelOrder
    simp only [hfound]
    rw [if_neg (by simp [hperm]), if_neg (by simp [hc])]
    rfl
  · intro hc o2 h2
    unfold cancelOrder at h2 ⊢
    simp only [hfound] at h2 ⊢
    rw [if_neg (by simp [hperm]), if_neg (by simp [hc])] at h2 ⊢
    simp only [Except.ok.injEq] at h2
    subst h2
    refine ⟨?_, ?_, ?_⟩
    · rw [applySaveHook_status]
    · rw [applySaveHook_cancellation]
    · simp only
      rw [findOrder_saveOrder]
      rw [if_pos ⟨by rw [applySaveHook_id]; exact hoid.symm,
        by rw [applySaveHook_id]
           show (findOrder s.orders o.id).isSome = true
           rw [hoid, hfound]; rfl⟩]

theorem claim4_cancel_guard_witness :
    ((exShippedOrder.canBeCancelled = true ↔
      (exShippedOrder.status = OrderStatus.pending ∨
        exShippedOrder.status = OrderStatus.confirmed)) ∧
     (cancelOrder exOrderS 8 (some "no") { id := 7, isAdmin := false } 5000 =
        (.error .invalidTransition, exOrderS))) ∧
    ((cancelOrder exOrderS 6 (some "no") { id := 7, isAdmin := false } 5000).1.isOk = true) :=
  ⟨⟨(claim4_cancel_guard exOrderS 8 (some "no") { id := 7, isAdmin := false } 5000
      exShippedOrder rfl (by decide)).1,
    (claim4_cancel_guard exOrderS 8 (some "no") { id := 7, isAdmin := false } 5000
      exShippedOrder rfl (by decide)).2.1 (by decide)⟩,
   (claim4_cancel_guard exOrderS 6 (some "no") { id := 7, isAdmin := false } 5000
      exPendingOrder rfl (by decide)).2.2.1 (by decide)⟩

/-- Claim C9: a helpful-vote request by a user who has already voted on the
review fails with the already-voted error and changes nothing; a first vote
appends exactly one vote record and increments the helpful counter iff the
helpful flag is true. -/
theorem claim9_helpful_vote (s : State) (reviewId userId : ℕ) (helpful : Bool)
    (now : ℤ) (r : Review)
    (hfound : findReview s.reviews reviewId = some r) :
    (r.canVote userId = false →
      addHelpfulVote s reviewId userId helpful now = (.error .alreadyVoted, s)) ∧
    (r.canVote userId = true →
      (addHelpfulVote s reviewId userId helpful now).1 =
        .ok { r with
          votedBy := r.votedBy ++ [{ user := userId, helpful := helpful, votedAt := now }],
          helpfulVotes := r.helpfulVotes + (if helpful then 1 else 0) }) := by
  constructor
  · intro hc
    unfold addHelpfulVote
    simp only [hfound]
    rw [if_pos (by simp [hc])]
  · intro hc
    unfold addHelpfulVote
    simp only [hfound]
    rw [if_neg (by simp [hc])]

/-- Claim C10: items that do not track inventory are left untouched (quantity
and total-sold) by both order creation and order cancellation, and their
availability ignores the requested quantity: `isAvailable` is true for every
quantity as long as the item is active. -/
theorem claim10_untracked_frame (s : State) (customerId : ℕ) (req : List ReqItem)
    (method : PaymentMethod) (newOrderId : ℕ) (now : ℤ)
    (orderId : ℕ) (reason : Option String) (actor : Actor) (now2 : ℤ)
    (i : ℕ) (p : Product)
    (hfp : findProduct s.products i = some p)
    (htf : p.trackInventory = false) :
    findProduct (createOrder s customerId req method newOrderId now).2.products i = some p ∧
    findProduct (cancelOrder s orderId reason actor now2).2.products i = some p ∧
    (∀ q, p.isActive = true → p.isAvailable q = true) := by
  refine ⟨?_, ?_, ?_⟩
  · unfold createOrder
    cases hloop : processItems req s.products with
    | fail e ps1 =>
      simp only
      exact processItems_fail_untracked req s.products e ps1 hloop i p hfp htf
    | ok ps1 sub items =>
      simp only
      rw [(processItems_ok_spec req s.products ps1 sub items hloop).1 i, hfp]
      simp only [Option.map_some', Option.some.injEq]
      exact decrementFor_untracked htf
  · unfold cancelOrder
    split
    · exact hfp
    · split
      · exact hfp
      · split
        · exact hfp
        · simp only
          rw [restoreItems_find, hfp]
          simp only [Option.map_some', Option.some.injEq]
          exact incrementFor_untracked htf
  · intro q hact
    unfold Product.isAvailable
    rw [if_neg (by simp [hact]), if_pos (by simp [htf])]

theorem claim10_untracked_frame_witness :
    findProduct (createOrder exS 7 [{ product := 3, quantity := 5 }] .cod 42 1000).2.products 3 =
      some pC ∧
    findProduct (cancelOrder exS 6 none { id := 7, isAdmin := true } 2000).2.products 3 =
      some pC ∧
    (∀ q, pC.isActive = true → pC.isAvailable q = true) :=
  claim10_untracked_frame exS 7 [{ product := 3, quantity := 5 }] .cod 42 1000
    6 none { id := 7, isAdmin := true } 2000 3 pC (by decide) (by decide)

theorem claim9_helpful_vote_witness :
    (addHelpfulVote exVoteS 30 9 false 200 = (.error .alreadyVoted, exVoteS)) ∧
    ((addHelpfulVote exVoteS 30 7 true 200).1 =
      .ok { exVotedReview with
        votedBy := exVotedReview.votedBy ++ [{ user := 7, helpful := true, votedAt := 200 }],
        helpfulVotes := exVotedReview.helpfulVotes + (if true then 1 else 0) }) :=
  ⟨(claim9_helpful_vote exVoteS 30 9 false 200 exVotedReview rfl).1 (by decide),
   (claim9_helpful_vote exVoteS 30 7 true 200 exVotedReview rfl).2 (by decide)⟩

theorem applySaveHook_timeline (orig o : Order) (now : ℤ) :
    (applySaveHook orig o now).timeline =
      if o.status = orig.status then o.timeline
      else o.timeline ++
        [({ status := o.status, timestamp := now, note := some ("Order status changed to " ++ o.status.toText), updatedBy := none } : TimelineEntry)] := by
  unfold applySaveHook
  by_cases h : o.status = orig.status <;> simp [h]

theorem ite_delivery_status (c : Prop) [Decidable c] (X : Order) (v : Option ℤ) :
    (if c then { X with actualDelivery := v } else X).status = X.status := by
  split <;> rfl

theorem ite_delivery_timeline (c : Prop) [Decidable c] (X : Order) (v : Option ℤ) :
    (if c then { X with actualDelivery := v } else X).timeline = X.timeline := by
  split <;> rfl

theorem ite_delivery_actualDelivery (c : Prop) [Decidable c] (X : Order) (v : Option ℤ) :
    (if c then { X with actualDelivery := v } else X).actualDelivery =
      if c then v else X.actualDelivery := by
  split <;> rfl

/-- Claim C1: every order persisted by the create handler satisfies
totalAmount = subtotal + shippingCost + tax - discount.amount with tax exactly
18% of the subtotal and zero shipping, the subtotal being the sum of
discounted-unit-price times quantity over the line items; and neither the
status-update handler nor the cancel handler ever recomputes any stored
order's pricing. -/
theorem claim1_pricing_identity (s : State) (customerId : ℕ) (req : List ReqItem)
    (method : PaymentMethod) (newOrderId : ℕ) (now : ℤ) (o : Order) (s1 : State)
    (hcreate : createOrder s customerId req method newOrderId now = (.ok o, s1)) :
    o.pricing.totalAmount =
      o.pricing.subtotal + o.pricing.shippingCost + o.pricing.tax - o.pricing.discountAmount ∧
    o.pricing.tax = 18 / 100 * o.pricing.subtotal ∧
    o.pricing.shippingCost = 0 ∧
    o.pricing.discountAmount = 0 ∧
    o.pricing.subtotal = itemsSubtotal o.items ∧
    (∀ oi ∈ o.items, ∀ p, findProduct s.products oi.product = some p →
      oi.price = p.discountedPrice) ∧
    (∀ (t : State) (oid : ℕ) (ns : OrderStatus) (nt : Option String) (actor : Actor)
        (n2 : ℤ) (j : ℕ),
      (findOrder (updateStatus t oid ns nt actor n2).2.orders j).map Order.pricing =
        (findOrder t.orders j).map Order.pricing) ∧
    (∀ (t : State) (oid : ℕ) (rsn : Option String) (actor : Actor) (n2 : ℤ) (j : ℕ),
      (findOrder (cancelOrder t oid rsn actor n2).2.orders j).map Order.pricing =
        (findOrder t.orders j).map Order.pricing) := by
  unfold createOrder at hcreate
  cases hloop : processItems req s.products with
  | fail e ps1 =>
    rw [hloop] at hcreate
    exact absurd hcreate (by simp)
  | ok ps1 sub items =>
    rw [hloop] at hcreate
    simp only [Prod.mk.injEq, Except.ok.injEq] at hcreate
    obtain ⟨ho, hs1⟩ := hcreate
    obtain ⟨hfind, hitems, hsub⟩ := processItems_ok_spec req s.products ps1 sub items hloop
    subst ho
    refine ⟨?_, ?_, rfl, rfl, ?_, ?_,
      updateStatus_pricing_preserved, cancelOrder_pricing_preserved⟩
    · show sub + 0 + sub * (18 / 100) = sub + 0 + sub * (18 / 100) - 0
      ring
    · show sub * (18 / 100) = 18 / 100 * sub
      ring
    · show sub = itemsSubtotal items
      rw [hsub]
    · intro oi hmem p hfp2
      have hmem2 : oi ∈ items := hmem
      rw [hitems] at hmem2
      obtain ⟨it, hit, rfl⟩ := List.mem_map.mp hmem2
      rw [mkOrderItem_product] at hfp2
      simp [mkOrderItem, hfp2]

theorem claim1_pricing_identity_witness :
    exOrder1.pricing.totalAmount =
      exOrder1.pricing.subtotal + exOrder1.pricing.shippingCost + exOrder1.pricing.tax -
        exOrder1.pricing.discountAmount ∧
    exOrder1.pricing.tax = 18 / 100 * exOrder1.pricing.subtotal ∧
    exOrder1.pricing.shippingCost = 0 ∧
    exOrder1.pricing.discountAmount = 0 ∧
    exOrder1.pricing.subtotal = itemsSubtotal exOrder1.items :=
  have h := claim1_pricing_identity exS 7 exReq .cod 42 1000 exOrder1 exState1 rfl
  ⟨h.1, h.2.1, h.2.2.1, h.2.2.2.1, h.2.2.2.2.1⟩

/-- Claim C6 (amended): a valid status update appends the
`{status, timestamp, note, actor}` timeline entry iff a note is supplied; in
addition the order model's pre-save hook appends an automatic entry (without an
actor) whenever the stored status value actually changes; independently of the
note, setting the status to delivered stamps the actual-delivery timestamp. -/
theorem claim6_status_timeline (s : State) (orderId : ℕ) (newStatus : OrderStatus)
    (note : Option String) (actor : Actor) (now : ℤ) (o : Order)
    (hvalid : newStatus ∈ validUpdateStatuses)
    (hfound : findOrder s.orders orderId = some o)
    (hperm : (o.isArtisanOf actor.id || actor.isAdmin) = true) :
    (updateStatus s orderId newStatus note actor now).1.isOk = true ∧
    (∀ o2, (updateStatus s orderId newStatus note actor now).1 = .ok o2 →
      o2.timeline =
        o.timeline ++
          (match note with
           | some n => [{ status := newStatus, timestamp := now, note := some n,
                          updatedBy := some actor.id }]
           | none => []) ++
          (if newStatus = o.status then []
           else [{ status := newStatus, timestamp := now,
                   note := some ("Order status changed to " ++ newStatus.toText),
                   updatedBy := none }]) ∧
      o2.status = newStatus ∧
      o2.actualDelivery =
        (if newStatus = OrderStatus.delivered then some now else o.actualDelivery)) := by
  unfold updateStatus
  rw [if_neg (not_not_intro hvalid)]
  simp only [hfound]
  rw [if_neg (by simp [hperm])]
  refine ⟨rfl, ?_⟩
  intro o2 h2
  simp only [Except.ok.injEq] at h2
  subst h2
  refine ⟨?_, ?_, ?_⟩
  · rw [applySaveHook_timeline, ite_delivery_status, ite_delivery_timeline]
    cases note <;> by_cases hs : newStatus = o.status <;> simp [hs]
  · rw [applySaveHook_status, ite_delivery_status]
    cases note <;> rfl
  · rw [applySaveHook_actualDelivery, ite_delivery_actualDelivery]
    cases note <;> rfl

theorem claim6_status_timeline_witness :
    ((updateStatus exOrderS 6 OrderStatus.confirmed (some "packed")
        { id := 11, isAdmin := false } 3000).1.isOk = true) ∧
    (∀ o2, (updateStatus exOrderS 6 OrderStatus.confirmed (some "packed")
        { id := 11, isAdmin := false } 3000).1 = .ok o2 →
      o2.timeline =
        exPendingOrder.timeline ++
          [{ status := OrderStatus.confirmed, timestamp := 3000, note := some "packed",
             updatedBy := some 11 }] ++
          (if OrderStatus.confirmed = exPendingOrder.status then []
           else [{ status := OrderStatus.confirmed, timestamp := 3000,
                   note := some ("Order status changed to " ++ OrderStatus.confirmed.toText),
                   updatedBy := none }]) ∧
      o2.status = OrderStatus.confirmed ∧
      o2.actualDelivery =
        (if OrderStatus.confirmed = OrderStatus.delivered then some 3000
         else exPendingOrder.actualDelivery)) :=
  claim6_status_timeline exOrderS 6 OrderStatus.confirmed (some "packed")
    { id := 11, isAdmin := false } 3000 exPendingOrder (by decide) rfl (by decide)

/-- Claim C6, original wording refuted: updating a pending order to confirmed
with no note still appends one (automatic) timeline entry, so UpdateStatus does
not leave the timeline unchanged when no note is supplied. -/
theorem claim6_counterexample :
    (updateStatus exOrderS 6 OrderStatus.confirmed none { id := 9, isAdmin := true } 3000).1.map
        (fun o => o.timeline.length) = .ok 1 ∧
    exPendingOrder.timeline.length = 0 := by
  constructor
  · rfl
  · rfl

/-- Claim C2: a successful order for a tracked item decrements its stored
quantity by the ordered amount and increments its total-sold counter by the
same amount, and cancelling that order while it is still pending restores
every product record to its pre-order value — cancellation is the inverse of
creation on inventory state. -/
theorem claim2_inventory_inverse (s : State) (customerId : ℕ) (req : List ReqItem)
    (method : PaymentMethod) (newOrderId : ℕ) (now now2 : ℤ) (reason : Option String)
    (o : Order) (s1 : State) (pid : ℕ) (p : Product) (q : ℤ)
    (hp : findProduct s.products pid = some p)
    (ht : p.trackInventory = true)
    (hq : reqQty req pid = q)
    (hfresh : findOrder s.orders newOrderId = none)
    (hcreate : createOrder s customerId req method newOrderId now = (.ok o, s1)) :
    findProduct s1.products pid =
      some { p with quantity := p.quantity - q, totalSold := p.totalSold + q } ∧
    (cancelOrder s1 newOrderId reason { id := customerId, isAdmin := false } now2).1.isOk
      = true ∧
    (∀ i, findProduct
        (cancelOrder s1 newOrderId reason
          { id := customerId, isAdmin := false } now2).2.products i =
      findProduct s.products i) := by
  unfold createOrder at hcreate
  cases hloop : processItems req s.products with
  | fail e ps1 =>
    rw [hloop] at hcreate
    exact absurd hcreate (by simp)
  | ok ps1 sub items =>
    rw [hloop] at hcreate
    simp only [Prod.mk.injEq, Except.ok.injEq] at hcreate
    obtain ⟨ho, hs1⟩ := hcreate
    obtain ⟨hfind, hitems, hsub⟩ := processItems_ok_spec req s.products ps1 sub items hloop
    have hpid : p.id = pid := findProduct_eq_id hp
    have hoid2 : o.id = newOrderId := by rw [← ho]
    have hcust : o.customer = customerId := by rw [← ho]
    have hstat : o.status = OrderStatus.pending := by rw [← ho]
    have hoitems : o.items = items := by rw [← ho]
    subst hs1
    have hdecp : decrementFor req p =
        { p with quantity := p.quantity - q, totalSold := p.totalSold + q } := by
      unfold decrementFor
      rw [if_pos ht, hpid, hq]
    have hfound1 : findProduct ps1 pid = some (decrementFor req p) := by
      rw [hfind pid, hp]
      rfl
    have hcancel : ∀ i,
        findProduct (restoreItems items ps1) i = findProduct s.products i := by
      intro i
      rw [restoreItems_find, hfind i]
      cases hfi : findProduct s.products i with
      | none => rfl
      | some r =>
        simp only [Option.map_some', Option.some.injEq]
        apply incrementFor_decrementFor
        rw [hitems, orderQty_map_mkOrderItem]
    have hfo : findOrder (s.orders ++ [o]) newOrderId = some o := by
      rw [findOrder_append _ _ _ hfresh, if_pos hoid2]
    refine ⟨?_, ?_, ?_⟩
    · show findProduct ps1 pid = _
      rw [hfound1, hdecp]
    · unfold cancelOrder
      rw [ho]
      simp only [hfo]
      rw [if_neg (by simp [hcust]), if_neg (by simp [Order.canBeCancelled, hstat])]
      rfl
    · intro i
      unfold cancelOrder
      rw [ho]
      simp only [hfo]
      rw [if_neg (by simp [hcust]), if_neg (by simp [Order.canBeCancelled, hstat])]
      show findProduct (restoreItems o.items ps1) i = _
      rw [hoitems]
      exact hcancel i

theorem claim2_inventory_inverse_witness :
    findProduct exState1.products 1 =
      some { pA with quantity := pA.quantity - 3, totalSold := pA.totalSold + 3 } ∧
    (cancelOrder exState1 42 (some "changed my mind")
      { id := 7, isAdmin := false } 2000).1.isOk = true ∧
    findProduct (cancelOrder exState1 42 (some "changed my mind")
      { id := 7, isAdmin := false } 2000).2.products 1 = findProduct exS.products 1 :=
  have h := claim2_inventory_inverse exS 7 exReq .cod 42 1000 2000
    (some "changed my mind") exOrder1 exState1 1 pA 3 rfl rfl (by decide) rfl rfl
  ⟨h.1, h.2.1, h.2.2 1⟩

/-- Claim C3: order creation is not atomic — when a later request line fails
validation, the request fails with that line's error, no order is persisted and
the cart is untouched, but the stock decrements already applied to the earlier
lines are kept; in particular a single-line order for a tracked, active item
with zero stock fails with the insufficient-stock error and changes nothing. -/
theorem claim3_nonatomic_create (s : State) (customerId : ℕ)
    (done : List ReqItem) (bad : ReqItem) (rest : List ReqItem)
    (method : PaymentMethod) (newOrderId : ℕ) (now : ℤ)
    (ps0 : List Product) (sub0 : ℚ) (items0 : List OrderItem) (e : OrderError)
    (hdone : processItems done s.products = .ok ps0 sub0 items0)
    (hbad : lineError ps0 bad = some e) :
    createOrder s customerId (done ++ bad :: rest) method newOrderId now =
      (.error e, { s with products := ps0 }) ∧
    (∀ i, findProduct ps0 i = (findProduct s.products i).map (decrementFor done)) ∧
    (∀ (pid : ℕ) (p : Product) (qty : ℤ),
      findProduct s.products pid = some p →
      p.isActive = true → p.trackInventory = true → p.quantity = 0 → 1 ≤ qty →
      createOrder s customerId [{ product := pid, quantity := qty }] method newOrderId now =
        (.error (.insufficientStock pid), s)) := by
  refine ⟨?_, (processItems_ok_spec done s.products ps0 sub0 items0 hdone).1, ?_⟩
  · have hfail : processItems (bad :: rest) ps0 = .fail e ps0 := by
      unfold lineError at hbad
      simp only [processItems]
      cases hf : findProduct ps0 bad.product with
      | none => simp_all
      | some p =>
        by_cases hact : p.isActive = true
        · by_cases hav : p.isAvailable bad.quantity = true
          · simp_all
          · simp_all
        · simp_all
    unfold createOrder
    rw [processItems_prefix_fail done s.products ps0 sub0 items0 (bad :: rest) e ps0
      hdone hfail]
  · intro pid p qty hfp hact htr hq0 hq1
    have hav : p.isAvailable qty = false := by
      unfold Product.isAvailable
      rw [if_neg (by simp [hact]), if_neg (by simp [htr])]
      simp only [decide_eq_false_iff_not, not_le, hq0]
      omega
    unfold createOrder
    simp only [processItems, hfp]
    rw [if_neg (by simp [hact]), if_pos (by simp [hav])]

theorem claim3_nonatomic_create_witness :
    (createOrder exS 7
        ([{ product := 1, quantity := 2 }] ++ { product := 4, quantity := 1 } :: [])
        .cod 43 1000 =
      (.error (.insufficientStock 4),
        { exS with products :=
            (processItems [{ product := 1, quantity := 2 }] exS.products).productsOf })) ∧
    (createOrder exS 7 [{ product := 4, quantity := 1 }] .cod 43 1000 =
      (.error (.insufficientStock 4), exS)) :=
  have h := claim3_nonatomic_create exS 7
    [{ product := 1, quantity := 2 }] { product := 4, quantity := 1 } [] .cod 43 1000
    (processItems [{ product := 1, quantity := 2 }] exS.products).productsOf
    (processItems [{ product := 1, quantity := 2 }] exS.products).subtotalOf
    (processItems [{ product := 1, quantity := 2 }] exS.products).itemsOf
    (.insufficientStock 4) rfl rfl
  ⟨h.1, h.2.2 4 pZero 1 rfl rfl rfl rfl (by decide)⟩

/-- Claim C8: when an eligible order exists but a review record with the same
(buyer, item, order) triple is already stored, a second create-review request
fails with the duplicate-review error and stores nothing; and review creation
preserves the at-most-one-review-per-triple invariant. -/
theorem claim8_duplicate_review (s : State) (customerId productId orderId : ℕ)
    (ratingOverall : ℚ) (comment : String) (newReviewId : ℕ) (o : Order)
    (heligible : findEligibleOrder s.orders orderId customerId productId = some o)
    (hdup : duplicateExists s.reviews customerId productId orderId = true) :
    createReview s customerId productId orderId ratingOverall comment newReviewId =
      (.error .duplicateReview, s) ∧
    (∀ (t : State) (c pid oid : ℕ) (rt : ℚ) (cm : String) (rid : ℕ) (r : Review)
        (t1 : State),
      atMostOnePerTriple t.reviews →
      createReview t c pid oid rt cm rid = (.ok r, t1) →
      atMostOnePerTriple t1.reviews) := by
  constructor
  · unfold createReview
    simp only [heligible]
    rw [if_pos hdup]
  · intro t c pid oid rt cm rid r t1 hinv hok
    unfold createReview at hok
    split at hok
    · exact absurd hok (by simp)
    · rename_i o2 helig2
      split at hok
      · exact absurd hok (by simp)
      · rename_i hdup2
        split at hok
        · exact absurd hok (by simp)
        · rename_i oi hfind2
          simp only [Prod.mk.injEq, Except.ok.injEq] at hok
          obtain ⟨hr, ht1⟩ := hok
          have hrev : t1.reviews = t.reviews ++ [r] := by
            rw [← ht1, recomputeRatings_reviews]
            show t.reviews ++ [_] = t.reviews ++ [r]
            rw [hr]
          rw [hrev]
          unfold atMostOnePerTriple at hinv ⊢
          rw [List.pairwise_append]
          refine ⟨hinv, List.pairwise_singleton _ _, ?_⟩
          intro x hx y hy
          simp only [List.mem_singleton] at hy
          subst hy
          intro hsame
          apply hdup2
          unfold duplicateExists
          rw [List.any_eq_true]
          refine ⟨x, hx, ?_⟩
          unfold sameTriple at hsame
          rw [← hr] at hsame
          simp only [Bool.and_eq_true, decide_eq_true_eq]
          exact ⟨⟨hsame.1, hsame.2.1⟩, hsame.2.2⟩

theorem claim8_duplicate_review_witness :
    (createReview exVoteS 7 1 5 4 "again" 31 = (.error .duplicateReview, exVoteS)) ∧
    atMostOnePerTriple exRevState.reviews :=
  ⟨(claim8_duplicate_review exVoteS 7 1 5 4 "again" 31 exDelOrder rfl (by decide)).1,
   (claim8_duplicate_review exVoteS 7 1 5 4 "again" 31 exDelOrder rfl (by decide)).2
     exRevS 7 1 5 4 "lovely piece" 21 exReview exRevState List.Pairwise.nil rfl⟩

/-- Claim C5: after a successful review create, update, or delete, the catalog
item's stored rating average equals the arithmetic mean of the overall ratings
of its approved reviews rounded to one decimal place and its count equals the
number of those reviews (0 and 0 with no approved reviews, which is what
`specAverage` returns on the empty list); the same aggregation scoped to the
seller holds for the seller record. -/
theorem claim5_rating_aggregation :
    (∀ (s : State) (c pid oid : ℕ) (rt : ℚ) (cm : String) (rid : ℕ) (r : Review)
        (s1 : State) (p : Product) (a : Artisan),
      createReview s c pid oid rt cm rid = (.ok r, s1) →
      findProduct s1.products r.product = some p →
      findArtisan s1.artisans r.artisan = some a →
      (p.ratingAverage = specAverage (approvedForProduct s1.reviews r.product) ∧
       p.ratingCount = (approvedForProduct s1.reviews r.product).length) ∧
      (a.ratingAverage = specAverage (approvedForArtisan s1.reviews r.artisan) ∧
       a.ratingCount = (approvedForArtisan s1.reviews r.artisan).length)) ∧
    (∀ (s : State) (rid cid : ℕ) (nr : Option ℚ) (nc : Option String) (r1 : Review)
        (s1 : State) (p : Product) (a : Artisan),
      updateReview s rid cid nr nc = (.ok r1, s1) →
      findProduct s1.products r1.product = some p →
      findArtisan s1.artisans r1.artisan = some a →
      (p.ratingAverage = specAverage (approvedForProduct s1.reviews r1.product) ∧
       p.ratingCount = (approvedForProduct s1.reviews r1.product).length) ∧
      (a.ratingAverage = specAverage (approvedForArtisan s1.reviews r1.artisan) ∧
       a.ratingCount = (approvedForArtisan s1.reviews r1.artisan).length)) ∧
    (∀ (s : State) (rid cid : ℕ) (r : Review) (s1 : State) (p : Product) (a : Artisan),
      findReviewOwned s.reviews rid cid = some r →
      deleteReview s rid cid = (.ok (), s1) →
      findProduct s1.products r.product = some p →
      findArtisan s1.artisans r.artisan = some a →
      (p.ratingAverage = specAverage (approvedForProduct s1.reviews r.product) ∧
       p.ratingCount = (approvedForProduct s1.reviews r.product).length) ∧
      (a.ratingAverage = specAverage (approvedForArtisan s1.reviews r.artisan) ∧
       a.ratingCount = (approvedForArtisan s1.reviews r.artisan).length)) := by
  refine ⟨?_, ?_, ?_⟩
  · intro s c pid oid rt cm rid r s1 p a hok hfp hfa
    unfold createReview at hok
    split at hok
    · exact absurd hok (by simp)
    · split at hok
      · exact absurd hok (by simp)
      · split at hok
        · exact absurd hok (by simp)
        · rename_i oi hfind2
          simp only [Prod.mk.injEq, Except.ok.injEq] at hok
          obtain ⟨hr, ht1⟩ := hok
          subst hr
          subst ht1
          exact ⟨(recomputeRatings_spec _ pid oi.artisan).1 p hfp,
                 (recomputeRatings_spec _ pid oi.artisan).2 a hfa⟩
  · intro s rid cid nr nc r1 s1 p a hok hfp hfa
    unfold updateReview at hok
    split at hok
    · exact absurd hok (by simp)
    · rename_i r0 hfr0
      simp only [Prod.mk.injEq, Except.ok.injEq] at hok
      obtain ⟨hr, ht1⟩ := hok
      subst hr
      subst ht1
      exact ⟨(recomputeRatings_spec _ _ _).1 p hfp,
             (recomputeRatings_spec _ _ _).2 a hfa⟩
  · intro s rid cid r s1 p a hfr hok hfp hfa
    unfold deleteReview at hok
    split at hok
    · exact absurd hok (by simp)
    · rename_i r0 hfr0
      rw [hfr] at hfr0
      have hr0 : r = r0 := (Option.some.injEq _ _).mp hfr0
      subst hr0
      simp only [Prod.mk.injEq] at hok
      have ht1 := hok.2
      subst ht1
      exact ⟨(recomputeRatings_spec _ _ _).1 p hfp,
             (recomputeRatings_spec _ _ _).2 a hfa⟩

theorem claim5_rating_aggregation_witness :
    (exProdAfter.ratingAverage =
        specAverage (approvedForProduct exRevState.reviews exReview.product) ∧
      exProdAfter.ratingCount =
        (approvedForProduct exRevState.reviews exReview.product).length) ∧
    (exArtAfter.ratingAverage =
        specAverage (approvedForArtisan exRevState.reviews exReview.artisan) ∧
      exArtAfter.ratingCount =
        (approvedForArtisan exRevState.reviews exReview.artisan).length) :=
  claim5_rating_aggregation.1 exRevS 7 1 5 4 "lovely piece" 21 exReview exRevState
    exProdAfter exArtAfter rfl rfl rfl

end LocalLense
